import Mathlib

/-!
Verification development for the TedBot social-media notifier
(source: src/TedBot.py).

The dedup core of every fetcher has the shape

    for account, api_result in tracked.items():
        if api_result:
            latest = api_result[0]
            if account not in last_map or last_map[account] != latest.id:
                last_map[account] = latest.id      -- commit + save_config()
                return embed                       -- notification for caller to deliver

with per-platform variations in error handling (Bluesky and Instagram wrap the
whole account loop in one try/except; YouTube catches per account) and in the
Instagram-stories variant, which keeps a bounded list of seen story ids instead
of a single cursor.  Python dictionaries are modelled as association lists,
API calls as `Except` inputs supplied per account, and the returned Discord
embed as a `Notification` record carrying its dedup key.
-/

namespace TedBot

/-- Lookup in a Python-style string-keyed dictionary, modelled as an
association list with unique keys. -/
def dictGet {α : Type} (d : List (String × α)) (k : String) : Option α :=
  match d with
  | [] => none
  | (k₀, v) :: rest => if k₀ = k then some v else dictGet rest k

/-- Assignment `d[k] = v` on a Python-style dictionary: overwrite the existing
binding if the key is present, otherwise append a new binding. -/
def dictSet {α : Type} (d : List (String × α)) (k : String) (v : α) :
    List (String × α) :=
  match d with
  | [] => [(k, v)]
  | (k₀, v₀) :: rest =>
    if k₀ = k then (k, v) :: rest else (k₀, v₀) :: dictSet rest k v

/-- One normalized YouTube search result item: `id.videoId`,
`snippet.publishedAt` (seconds since epoch) and `snippet.title`. -/
structure YtItem where
  videoId : String
  publishedAt : Int
  title : String
deriving DecidableEq, Repr

/-- One Bluesky feed entry: the post `cid` and its record text. -/
structure BskyPost where
  cid : String
  text : String
deriving DecidableEq, Repr

/-- One Instagram story: its `id`, `media_type` and `taken_at` timestamp. -/
structure IgStory where
  id : String
  mediaType : Nat
  takenAt : Int
deriving DecidableEq, Repr

/-- The per-fetcher dedup dictionary the notification came from: the source
keeps one dictionary per (platform, kind) pair
(`last_bluesky_posts`, `last_videos`, `last_livestreams`,
`last_instagram_posts`, `last_instagram_stories`, `last_instagram_lives`). -/
inductive SourceCategory
  | blueskyPost
  | ytVideo
  | ytLivestream
  | igPost
  | igStory
  | igLive
deriving DecidableEq, Repr

/-- A produced notification (the Discord embed returned by a fetcher),
identified by its dedup key `(category, account)` and the item id that
triggered it. -/
structure Notification where
  category : SourceCategory
  account : String
  itemId : String
deriving DecidableEq, Repr

/-- An error raised by an external API call: an HTTP error with a status code
(googleapiclient.errors.HttpError) or any other exception. -/
inductive ApiError
  | httpError (status : Nat)
  | unknown
deriving DecidableEq, Repr

/-- Single-cursor dedup state: one last-notified id per account
(`self.last_videos`, `self.last_livestreams`, `self.last_bluesky_posts`, ...). -/
abbrev LastMap := List (String × String)

/-- Instagram-stories dedup state: a list of seen story ids per account
(`self.last_instagram_stories`). -/
abbrev SeenMap := List (String × List String)

/-- Per-account API results presented to one fetcher invocation: for each
tracked account, either the item list the platform returned (newest first)
or the exception the call raised. -/
abbrev FetchInput (ι : Type) := List (String × Except ApiError (List ι))

/-- Account loop of fetch_youtube_videos (src/TedBot.py lines 273-343): for
each handle, if the search result is non-empty take item 0; if the handle is
absent from `last_videos` or bound to a different id, commit the new id (the
source also calls save_config here) and return the embed.  Exceptions are
caught inside the loop, so an error on one handle only skips that handle. -/
def goVideos : LastMap → FetchInput YtItem → LastMap × Option Notification
  | last, [] => (last, none)
  | last, (_, .error _) :: rest => goVideos last rest
  | last, (handle, .ok items) :: rest =>
    match items with
    | [] => goVideos last rest
    | item :: _ =>
      if dictGet last handle ≠ some item.videoId then
        (dictSet last handle item.videoId, some ⟨.ytVideo, handle, item.videoId⟩)
      else goVideos last rest

/-- fetch_youtube_videos (src/TedBot.py lines 269-345): returns None
immediately when `notify_videos` is off, otherwise runs the account loop. -/
def fetchYoutubeVideos (notifyVideos : Bool) (last : LastMap)
    (inputs : FetchInput YtItem) : LastMap × Option Notification :=
  if notifyVideos then goVideos last inputs else (last, none)

/-- Account loop of fetch_youtube_livestreams (src/TedBot.py lines 351-414):
identical dedup logic over the separate `last_livestreams` dictionary, fed by
the eventType=live search. -/
def goLivestreams : LastMap → FetchInput YtItem → LastMap × Option Notification
  | last, [] => (last, none)
  | last, (_, .error _) :: rest => goLivestreams last rest
  | last, (handle, .ok items) :: rest =>
    match items with
    | [] => goLivestreams last rest
    | item :: _ =>
      if dictGet last handle ≠ some item.videoId then
        (dictSet last handle item.videoId,
         some ⟨.ytLivestream, handle, item.videoId⟩)
      else goLivestreams last rest

/-- fetch_youtube_livestreams (src/TedBot.py lines 347-416). -/
def fetchYoutubeLivestreams (notifyLivestreams : Bool) (last : LastMap)
    (inputs : FetchInput YtItem) : LastMap × Option Notification :=
  if notifyLivestreams then goLivestreams last inputs else (last, none)

/-- Account loop of fetch_bluesky_posts (src/TedBot.py lines 215-267): the
whole loop sits inside one try/except, so an exception on any account aborts
the remaining accounts and the function returns None. -/
def goBluesky : LastMap → FetchInput BskyPost → LastMap × Option Notification
  | last, [] => (last, none)
  | last, (_, .error _) :: _ => (last, none)
  | last, (account, .ok posts) :: rest =>
    match posts with
    | [] => goBluesky last rest
    | p :: _ =>
      if dictGet last account ≠ some p.cid then
        (dictSet last account p.cid, some ⟨.blueskyPost, account, p.cid⟩)
      else goBluesky last rest

/-- fetch_bluesky_posts (src/TedBot.py lines 215-267). -/
def fetchBlueskyPosts (last : LastMap) (inputs : FetchInput BskyPost) :
    LastMap × Option Notification :=
  goBluesky last inputs

/-- Python slice `l[-n:]`: the last `n` elements of a list. -/
def lastN {α : Type} (n : Nat) (l : List α) : List α :=
  l.drop (l.length - n)

/-- Inner story loop of fetch_instagram_stories (src/TedBot.py lines 527-530):
walk the fetched stories in order and return the id of the first one not in
the seen list, if any. -/
def storyScan (seen : List String) : List IgStory → Option String
  | [] => none
  | st :: rest => if st.id ∈ seen then storyScan seen rest else some st.id

/-- Account loop of fetch_instagram_stories (src/TedBot.py lines 518-592): for
each account, find the first unseen story; if there is one, append its id to
the seen list, truncate the list to its last 50 entries
(`self.last_instagram_stories[account][-50:]`, line 539), and return the
embed.  The whole loop is inside one try/except, so an exception aborts the
remaining accounts and returns None. -/
def goStories : SeenMap → FetchInput IgStory → SeenMap × Option Notification
  | seen, [] => (seen, none)
  | seen, (_, .error _) :: _ => (seen, none)
  | seen, (account, .ok stories) :: rest =>
    match storyScan ((dictGet seen account).getD []) stories with
    | some sid =>
      (dictSet seen account
         (lastN 50 (((dictGet seen account).getD []) ++ [sid])),
       some ⟨.igStory, account, sid⟩)
    | none => goStories seen rest

/-- fetch_instagram_stories (src/TedBot.py lines 512-601): returns None when
the Instagram client is absent or story notifications are off. -/
def fetchInstagramStories (clientOk notifyStories : Bool) (seen : SeenMap)
    (inputs : FetchInput IgStory) : SeenMap × Option Notification :=
  if clientOk && notifyStories then goStories seen inputs else (seen, none)

/-- Content categories named by the specification. -/
inductive ContentCategory
  | standard
  | short_form
  | live
  | story
  | external_post
deriving DecidableEq, Repr

/-- Raw classification hints carried by a fetched video: whether the platform
flags it as a live broadcast (the eventType facet of the search), and whether
it carries a short-form marker (an explicit flag or title-prefix convention).
The source inspects only the live facet. -/
structure RawHints where
  isLive : Bool
  shortFormMarker : Bool
deriving DecidableEq, Repr

/-- Category effectively assigned by the code: fetch_youtube_livestreams
queries eventType=live (src/TedBot.py lines 354-360) and
fetch_youtube_videos queries eventType=none, excluding live items
(lines 276-283), so an item flagged live is processed only by the livestream
pipeline and every other item only by the standard-video pipeline.  No code
path reads a short-form marker. -/
def classify (h : RawHints) : ContentCategory :=
  if h.isLive then .live else .standard

/-- Combined dedup state for the two YouTube pipelines, one dictionary per
category as in SocialMediaBot.__init__ (src/TedBot.py lines 73-74). -/
structure BotState where
  notifyVideos : Bool
  notifyLivestreams : Bool
  lastVideos : LastMap
  lastLivestreams : LastMap
deriving DecidableEq, Repr

/-- Modelled from the spec: the scheduler body (check_social_media, whose body
is not present in src/TedBot.py beyond its header) runs the fetchers in
sequence within one cycle and collects the embeds each returns.  The two
fetchers themselves are the source-translated functions above and touch only
their own dictionary. -/
def youtubeCycle (s : BotState) (vin lin : FetchInput YtItem) :
    BotState × List Notification :=
  let rv := fetchYoutubeVideos s.notifyVideos s.lastVideos vin
  let rl := fetchYoutubeLivestreams s.notifyLivestreams s.lastLivestreams lin
  ({ s with lastVideos := rv.1, lastLivestreams := rl.1 },
   rv.2.toList ++ rl.2.toList)

/-- Modelled from the spec: the sink (Discord channel.send) delivers the embed
a fetch step returned; the boolean records whether delivery succeeded.  The
dedup commit and save_config happen inside the fetch step itself
(src/TedBot.py lines 290-291 and 333), before the sink is ever invoked, so
the resulting state does not depend on the delivery outcome. -/
def cycleWithSink (last : LastMap) (inputs : FetchInput YtItem)
    (sinkOk : Bool) : LastMap × Option (Notification × Bool) :=
  match fetchYoutubeVideos true last inputs with
  | (l, some n) => (l, some (n, sinkOk))
  | (l, none) => (l, none)

/-- Modelled from the spec: one polling cycle runs the Bluesky fetcher and
then the YouTube video fetcher in sequence; each fetcher is the
source-translated total function above, so an error outcome inside one
fetcher is absorbed there and the cycle continues with the next source. -/
def pollCycle (lastB lastV : LastMap) (bin : FetchInput BskyPost)
    (vin : FetchInput YtItem) : (LastMap × LastMap) × List Notification :=
  let rb := fetchBlueskyPosts lastB bin
  let rv := fetchYoutubeVideos true lastV vin
  ((rb.1, rv.1), rb.2.toList ++ rv.2.toList)

/-- Modelled from the spec: RateLimiter state — `max_requests`, `time_window`
(seconds) and the ordered sequence of recorded request timestamps. -/
structure RateLimiter where
  maxRequests : Nat
  timeWindow : Nat
  timestamps : List Nat
deriving DecidableEq, Repr

/-- Configuration error raised when the rate limiter is constructed with
`max_requests = 0` (spec 4.1 edge case). -/
inductive ConfigError
  | zeroMaxRequests
deriving DecidableEq, Repr

/-- Modelled from the spec: `acquire` at time `now` — evict timestamps older
than `time_window`; if the remaining count is at least `max_requests`,
compute the delay until the oldest entry expires, suspend for exactly that
long and record a timestamp at the wake-up time; otherwise record `now`
immediately.  Returns the delay incurred and the new state; never rejects a
request, except the fail-fast configuration error when `max_requests = 0`. -/
def RateLimiter.acquire (rl : RateLimiter) (now : Nat) :
    Except ConfigError (Nat × RateLimiter) :=
  if rl.maxRequests = 0 then .error .zeroMaxRequests
  else
    let ts := rl.timestamps.filter (fun t => now < t + rl.timeWindow)
    if rl.maxRequests ≤ ts.length then
      let oldest := ts.head?.getD now
      let delay := oldest + rl.timeWindow - now
      .ok (delay, ⟨rl.maxRequests, rl.timeWindow, ts ++ [now + delay]⟩)
    else
      .ok (0, ⟨rl.maxRequests, rl.timeWindow, ts ++ [now]⟩)

/-- Modelled from the spec: `n` acquire calls in immediate succession starting
at time `now` — each call starts the moment the previous one returns, so call
`k + 1` happens at `now` plus the delays incurred so far.  Returns the total
elapsed delay and the final limiter state. -/
def RateLimiter.acquireRun (rl : RateLimiter) (now : Nat) :
    Nat → Except ConfigError (Nat × RateLimiter)
  | 0 => .ok (0, rl)
  | n + 1 =>
    match rl.acquire now with
    | .error e => .error e
    | .ok (d, rl₁) =>
      match rl₁.acquireRun (now + d) n with
      | .error e => .error e
      | .ok (rest, rl₂) => .ok (d + rest, rl₂)

/-- Modelled from the spec: scheduler state — the number of cycles currently
executing and the number of ticks skipped because a cycle was running. -/
structure SchedulerState where
  running : Nat
  skippedTicks : Nat
deriving DecidableEq, Repr

/-- An event seen by the scheduler: an interval tick, or the completion of a
running cycle. -/
inductive SchedulerEvent
  | tick
  | cycleEnd
deriving DecidableEq, Repr

/-- Modelled from the spec: single-flight tick policy — a tick that fires
while a cycle is running is skipped, not queued; a tick in the idle state
starts one cycle; a cycle completion returns the scheduler to idle. -/
def schedulerStep (s : SchedulerState) : SchedulerEvent → SchedulerState
  | .tick =>
    if 1 ≤ s.running then { s with skippedTicks := s.skippedTicks + 1 }
    else { running := s.running + 1, skippedTicks := s.skippedTicks }
  | .cycleEnd => { s with running := s.running - 1 }

/-- Run the scheduler from the initial idle state over a schedule of events. -/
def schedulerRun (events : List SchedulerEvent) : SchedulerState :=
  events.foldl schedulerStep ⟨0, 0⟩

/-- Replace the publish timestamp of a fetched item. -/
def setPublishedAt (t : Int) (i : YtItem) : YtItem :=
  { i with publishedAt := t }

/-- Replace every publish timestamp appearing anywhere in a fetch input. -/
def retime (t : Int) (inputs : FetchInput YtItem) : FetchInput YtItem :=
  inputs.map (fun p => (p.1, p.2.map (List.map (setPublishedAt t))))

theorem dictGet_dictSet_self {α : Type} (d : List (String × α)) (k : String)
    (v : α) : dictGet (dictSet d k v) k = some v := by
  induction d with
  | nil => simp [dictGet, dictSet]
  | cons hd tl ih =>
    obtain ⟨k₀, v₀⟩ := hd
    by_cases h : k₀ = k
    · simp [dictGet, dictSet, h]
    · simp [dictGet, dictSet, h, ih]

theorem dictGet_dictSet_ne {α : Type} (d : List (String × α)) (k k' : String)
    (v : α) (h : k ≠ k') : dictGet (dictSet d k v) k' = dictGet d k' := by
  induction d with
  | nil => simp [dictGet, dictSet, h]
  | cons hd tl ih =>
    obtain ⟨k₀, v₀⟩ := hd
    by_cases h₀ : k₀ = k
    · subst h₀
      simp [dictGet, dictSet, h]
    · by_cases h₁ : k₀ = k'
      · subst h₁
        simp [dictGet, dictSet, Ne.symm h]
      · simp [dictGet, dictSet, h₀, h₁, ih]

theorem goVideos_retime (t : Int) (inputs : FetchInput YtItem) :
    ∀ last, goVideos last (retime t inputs) = goVideos last inputs := by
  induction inputs with
  | nil => intro last; rfl
  | cons p rest ih =>
    intro last
    obtain ⟨handle, r⟩ := p
    cases r with
    | error e => simpa [retime, goVideos] using ih last
    | ok items =>
      cases items with
      | nil => simpa [retime, goVideos] using ih last
      | cons i is =>
        by_cases hnew : dictGet last handle ≠ some i.videoId
        · simp [retime, goVideos, setPublishedAt, hnew]
        · simp [retime, goVideos, setPublishedAt, hnew]
          exact ih last

theorem fetchYoutubeVideos_true (last : LastMap) (inputs : FetchInput YtItem) :
    fetchYoutubeVideos true last inputs = goVideos last inputs := rfl

theorem goVideos_none_eq (inputs : FetchInput YtItem) :
    ∀ last, (goVideos last inputs).2 = none → (goVideos last inputs).1 = last := by
  induction inputs with
  | nil => intro last _; rfl
  | cons p rest ih =>
    intro last hnone
    obtain ⟨handle, r⟩ := p
    cases r with
    | error e =>
      simpa [goVideos] using ih last (by simpa [goVideos] using hnone)
    | ok items =>
      cases items with
      | nil =>
        simpa [goVideos] using ih last (by simpa [goVideos] using hnone)
      | cons i is =>
        by_cases hnew : dictGet last handle ≠ some i.videoId
        · exfalso
          simp [goVideos, hnew] at hnone
        · simpa [goVideos, hnew] using
            ih last (by simpa [goVideos, hnew] using hnone)

theorem goVideos_some_account_mem (inputs : FetchInput YtItem) :
    ∀ last n, (goVideos last inputs).2 = some n →
      n.account ∈ inputs.map Prod.fst := by
  induction inputs with
  | nil =>
    intro last n hn
    simp [goVideos] at hn
  | cons p rest ih =>
    intro last n hn
    obtain ⟨handle, r⟩ := p
    cases r with
    | error e =>
      have := ih last n (by simpa [goVideos] using hn)
      simp [this]
    | ok items =>
      cases items with
      | nil =>
        have := ih last n (by simpa [goVideos] using hn)
        simp [this]
      | cons i is =>
        by_cases hnew : dictGet last handle ≠ some i.videoId
        · have heq : (⟨SourceCategory.ytVideo, handle, i.videoId⟩ : Notification) = n := by
            simpa [goVideos, hnew] using hn
          simp [← heq]
        · have := ih last n (by simpa [goVideos, hnew] using hn)
          simp [this]

theorem goVideos_some_decomp (inputs : FetchInput YtItem) :
    ∀ last n, (goVideos last inputs).2 = some n →
      n.category = SourceCategory.ytVideo ∧
      (goVideos last inputs).1 = dictSet last n.account n.itemId ∧
      dictGet last n.account ≠ some n.itemId ∧
      ∃ pre items post,
        inputs = pre ++ (n.account, Except.ok items) :: post ∧
        (goVideos last pre).2 = none ∧
        items.head?.map YtItem.videoId = some n.itemId := by
  induction inputs with
  | nil =>
    intro last n hn
    simp [goVideos] at hn
  | cons p rest ih =>
    intro last n hn
    obtain ⟨handle, r⟩ := p
    cases r with
    | error e =>
      obtain ⟨hcat, hst, hget, pre, items, post, hsplit, hpre, hhead⟩ :=
        ih last n (by simpa [goVideos] using hn)
      refine ⟨hcat, by simpa [goVideos] using hst, hget,
        (handle, .error e) :: pre, items, post, by simp [hsplit], ?_, hhead⟩
      simpa [goVideos] using hpre
    | ok items =>
      cases items with
      | nil =>
        obtain ⟨hcat, hst, hget, pre, mid, post, hsplit, hpre, hhead⟩ :=
          ih last n (by simpa [goVideos] using hn)
        refine ⟨hcat, by simpa [goVideos] using hst, hget,
          (handle, .ok []) :: pre, mid, post, by simp [hsplit], ?_, hhead⟩
        simpa [goVideos] using hpre
      | cons i is =>
        by_cases hnew : dictGet last handle ≠ some i.videoId
        · have heq : (⟨SourceCategory.ytVideo, handle, i.videoId⟩ : Notification) = n := by
            simpa [goVideos, hnew] using hn
          subst heq
          exact ⟨rfl, by simp [goVideos, hnew], hnew,
            [], i :: is, rest, rfl, rfl, rfl⟩
        · obtain ⟨hcat, hst, hget, pre, mid, post, hsplit, hpre, hhead⟩ :=
            ih last n (by simpa [goVideos, hnew] using hn)
          refine ⟨hcat, by simpa [goVideos, hnew] using hst, hget,
            (handle, .ok (i :: is)) :: pre, mid, post, by simp [hsplit], ?_, hhead⟩
          simpa [goVideos, hnew] using hpre

theorem goVideos_append_skip (pre : FetchInput YtItem) :
    ∀ last last' xs, (goVideos last pre).2 = none →
      (∀ a ∈ pre.map Prod.fst, dictGet last' a = dictGet last a) →
      goVideos last' (pre ++ xs) = goVideos last' xs := by
  induction pre with
  | nil => intro last last' xs _ _; rfl
  | cons p rest ih =>
    intro last last' xs h₁ h₂
    obtain ⟨handle, r⟩ := p
    cases r with
    | error e =>
      have := ih last last' xs (by simpa [goVideos] using h₁)
        (fun a ha => h₂ a (by simp [ha]))
      simpa [goVideos] using this
    | ok items =>
      cases items with
      | nil =>
        have := ih last last' xs (by simpa [goVideos] using h₁)
          (fun a ha => h₂ a (by simp [ha]))
        simpa [goVideos] using this
      | cons i is =>
        by_cases hnew : dictGet last handle ≠ some i.videoId
        · exfalso
          simp [goVideos, hnew] at h₁
        · push_neg at hnew
          have hh : dictGet last' handle = some i.videoId := by
            rw [h₂ handle (by simp)]
            exact hnew
          have := ih last last' xs (by simpa [goVideos, hnew] using h₁)
            (fun a ha => h₂ a (by simp [ha]))
          simpa [goVideos, hh] using this

theorem goVideos_replay_skip (last : LastMap) (inputs : FetchInput YtItem)
    (hnd : (inputs.map Prod.fst).Nodup) (n : Notification)
    (hn : (goVideos last inputs).2 = some n) :
    ∃ post : FetchInput YtItem,
      post.length < inputs.length ∧
      n.account ∉ post.map Prod.fst ∧
      goVideos (goVideos last inputs).1 inputs
        = goVideos (goVideos last inputs).1 post := by
  obtain ⟨hcat, hst, hget, pre, items, post, hsplit, hpre, hhead⟩ :=
    goVideos_some_decomp inputs last n hn
  cases items with
  | nil => simp at hhead
  | cons i is =>
    have hvid : i.videoId = n.itemId := by simpa using hhead
    have hmap : inputs.map Prod.fst
        = pre.map Prod.fst ++ n.account :: post.map Prod.fst := by
      rw [hsplit]; simp
    rw [hmap] at hnd
    have hdisj := List.disjoint_of_nodup_append hnd
    have hnotpre : ∀ a ∈ pre.map Prod.fst, a ≠ n.account := by
      intro a ha heq
      exact hdisj ha (by rw [heq]; exact List.mem_cons_self _ _)
    have hnotpost : n.account ∉ post.map Prod.fst :=
      (List.nodup_cons.mp (hnd.of_append_right)).1
    have hagree : ∀ a ∈ pre.map Prod.fst,
        dictGet (goVideos last inputs).1 a = dictGet last a := by
      intro a ha
      rw [hst]
      exact dictGet_dictSet_ne last n.account a n.itemId
        (fun heq => hnotpre a ha heq.symm)
    have hmidget : dictGet (goVideos last inputs).1 n.account = some i.videoId := by
      rw [hst, hvid]
      exact dictGet_dictSet_self last n.account n.itemId
    refine ⟨post, by rw [hsplit]; simp; omega, hnotpost, ?_⟩
    calc goVideos (goVideos last inputs).1 inputs
        = goVideos (goVideos last inputs).1
            (pre ++ (n.account, Except.ok (i :: is)) :: post) := by rw [hsplit]
      _ = goVideos (goVideos last inputs).1
            ((n.account, Except.ok (i :: is)) :: post) :=
          goVideos_append_skip pre last (goVideos last inputs).1 _ hpre hagree
      _ = goVideos (goVideos last inputs).1 post := by
          simp [goVideos, hmidget]

/-- C5: the claim says a short-form marker without a live flag yields the
category short_form.  In the code no path inspects a short-form marker: the
non-live pipeline treats every item as a standard video, so an item with a
short-form marker and no live flag is classified standard, not short_form. -/
theorem c5_counterexample :
    classify ⟨false, true⟩ = ContentCategory.standard ∧
      ContentCategory.standard ≠ ContentCategory.short_form := by
  exact ⟨rfl, by decide⟩

/-- C5 (amended): classification assigns exactly one category per item; the
live flag takes precedence and yields live; without the live flag every item
is standard — the code has no short-form category, so a short-form marker
alone still yields standard; no item is ever double-classified, since
classification is a single-valued function whose only values are live and
standard. -/
theorem c5_amended (s : Bool) :
    classify ⟨true, s⟩ = ContentCategory.live ∧
      classify ⟨false, s⟩ = ContentCategory.standard ∧
      ∀ h : RawHints,
        classify h = ContentCategory.live ∨
          classify h = ContentCategory.standard := by
  refine ⟨rfl, rfl, ?_⟩
  intro h
  by_cases hl : h.isLive = true
  · exact Or.inl (by simp [classify, hl])
  · exact Or.inr (by simp [classify, hl])

/-- C3: the claim says an item published before now minus the staleness window
never triggers a notification, even unseen on the very first run.  The code
has no age filter: with empty dedup state, an item published at epoch time 0
— which is before now − 86400 for now = 1000000000 — still produces a
notification on the first run. -/
theorem c3_counterexample :
    (0 : Int) < 1000000000 - 86400 ∧
      fetchYoutubeVideos true [] [("goosetheband", .ok [⟨"vOld", 0, "old"⟩])]
        = ([("goosetheband", "vOld")],
           some ⟨.ytVideo, "goosetheband", "vOld"⟩) := by
  exact ⟨by decide, by decide⟩

/-- C3 (amended): there is no staleness filter — the fetch step's result
(state and notification) is invariant under arbitrary reassignment of every
publish timestamp, and an unseen item is notified on the very first run with
empty dedup state whatever its publish timestamp is. -/
theorem c3_amended (t ts : Int) (nv : Bool) (last : LastMap)
    (inputs : FetchInput YtItem) (h vid ttl : String) :
    fetchYoutubeVideos nv last (retime t inputs)
        = fetchYoutubeVideos nv last inputs ∧
      fetchYoutubeVideos true [] [(h, .ok [⟨vid, ts, ttl⟩])]
        = ([(h, vid)], some ⟨.ytVideo, h, vid⟩) := by
  constructor
  · cases nv <;> simp [fetchYoutubeVideos, goVideos_retime]
  · simp [fetchYoutubeVideos, goVideos, dictGet, dictSet]

/-- C2: replay idempotence of the fetch step.  For tracked accounts with
distinct handles (Python dictionary keys are unique): once a notification for
a key has been committed, running the fetch step again on the identical fetch
result never notifies that key again; if the first run produced nothing, the
second produces nothing; and with at most one tracked account, the second of
two consecutive runs on identical input always produces nothing — so the two
runs yield exactly the one notification of the first run, not two. -/
theorem c2_replay (nv : Bool) (last : LastMap) (inputs : FetchInput YtItem)
    (hnd : (inputs.map Prod.fst).Nodup) :
    (∀ n n', (fetchYoutubeVideos nv last inputs).2 = some n →
        (fetchYoutubeVideos nv
          (fetchYoutubeVideos nv last inputs).1 inputs).2 = some n' →
        n'.account ≠ n.account) ∧
      ((fetchYoutubeVideos nv last inputs).2 = none →
        (fetchYoutubeVideos nv
          (fetchYoutubeVideos nv last inputs).1 inputs).2 = none) ∧
      (inputs.length ≤ 1 →
        ∀ n, (fetchYoutubeVideos nv last inputs).2 = some n →
          (fetchYoutubeVideos nv
            (fetchYoutubeVideos nv last inputs).1 inputs).2 = none) := by
  cases nv with
  | false =>
    refine ⟨?_, ?_, ?_⟩ <;> simp [fetchYoutubeVideos]
  | true =>
    rw [fetchYoutubeVideos_true]
    rw [fetchYoutubeVideos_true]
    refine ⟨?_, ?_, ?_⟩
    · intro n n' hn hn'
      obtain ⟨post, hlen, hnotpost, hrw⟩ :=
        goVideos_replay_skip last inputs hnd n hn
      rw [hrw] at hn'
      have hmem := goVideos_some_account_mem post _ n' hn'
      intro heq
      rw [heq] at hmem
      exact hnotpost hmem
    · intro hnone
      rw [goVideos_none_eq inputs last hnone]
      exact hnone
    · intro hlen n hn
      obtain ⟨post, hplen, _, hrw⟩ :=
        goVideos_replay_skip last inputs hnd n hn
      have hpost : post = [] := by
        have : post.length = 0 := by omega
        exact List.length_eq_zero.mp this
      rw [hrw, hpost]
      rfl

/-- Witness for c2_replay at a concrete input: one tracked handle whose
latest video is unseen. -/
theorem c2_replay_witness :
    ((([("goosetheband",
          Except.ok [(⟨"v3", 5, "title3"⟩ : YtItem)])] :
        FetchInput YtItem).map Prod.fst).Nodup) ∧
      ((∀ n n',
          (fetchYoutubeVideos true [("goosetheband", "v2")]
            [("goosetheband", Except.ok [⟨"v3", 5, "title3"⟩])]).2 = some n →
          (fetchYoutubeVideos true
            (fetchYoutubeVideos true [("goosetheband", "v2")]
              [("goosetheband", Except.ok [⟨"v3", 5, "title3"⟩])]).1
            [("goosetheband", Except.ok [⟨"v3", 5, "title3"⟩])]).2 = some n' →
          n'.account ≠ n.account) ∧
        ((fetchYoutubeVideos true [("goosetheband", "v2")]
            [("goosetheband", Except.ok [⟨"v3", 5, "title3"⟩])]).2 = none →
          (fetchYoutubeVideos true
            (fetchYoutubeVideos true [("goosetheband", "v2")]
              [("goosetheband", Except.ok [⟨"v3", 5, "title3"⟩])]).1
            [("goosetheband", Except.ok [⟨"v3", 5, "title3"⟩])]).2 = none) ∧
        (([("goosetheband",
             (Except.ok [(⟨"v3", 5, "title3"⟩ : YtItem)] :
               Except ApiError (List YtItem)))].length ≤ 1) →
          ∀ n,
            (fetchYoutubeVideos true [("goosetheband", "v2")]
              [("goosetheband", Except.ok [⟨"v3", 5, "title3"⟩])]).2 = some n →
            (fetchYoutubeVideos true
              (fetchYoutubeVideos true [("goosetheband", "v2")]
                [("goosetheband", Except.ok [⟨"v3", 5, "title3"⟩])]).1
              [("goosetheband", Except.ok [⟨"v3", 5, "title3"⟩])]).2 = none)) :=
  ⟨by decide,
   c2_replay true [("goosetheband", "v2")]
     [("goosetheband", Except.ok [⟨"v3", 5, "title3"⟩])] (by decide)⟩

/-- C1: the claim says the dedup record is updated only after the sink
confirms delivery, so a failed delivery leaves the stored id and persisted
state unchanged and the next identical cycle re-attempts the item.  In the
code the commit and save_config happen inside the fetch step, before any
delivery: with last committed id v2 and fetch result [v3, v2, v1], a cycle
whose sink delivery FAILS still advances the stored id to v3, and the next
cycle on the identical fetch result produces no notification at all — the
item is not re-attempted. -/
theorem c1_counterexample :
    (cycleWithSink [("goosetheband", "v2")]
        [("goosetheband",
          Except.ok [⟨"v3", 5, "t3"⟩, ⟨"v2", 4, "t2"⟩, ⟨"v1", 3, "t1"⟩])]
        false).1
      = [("goosetheband", "v3")] ∧
    (cycleWithSink [("goosetheband", "v2")]
        [("goosetheband",
          Except.ok [⟨"v3", 5, "t3"⟩, ⟨"v2", 4, "t2"⟩, ⟨"v1", 3, "t1"⟩])]
        false).2
      = some (⟨.ytVideo, "goosetheband", "v3"⟩, false) ∧
    [("goosetheband", "v3")] ≠ [("goosetheband", "v2")] ∧
    (fetchYoutubeVideos true [("goosetheband", "v3")]
        [("goosetheband",
          Except.ok [⟨"v3", 5, "t3"⟩, ⟨"v2", 4, "t2"⟩, ⟨"v1", 3, "t1"⟩])]).2
      = none := by
  refine ⟨by decide, by decide, by decide, by decide⟩

/-- C1 (amended): the dedup record is updated at fetch time, before the sink
is invoked: whenever the fetch step produces a notification, the resulting
state — including the stored last-notified id, which advances to the fetched
item — is the same whether delivery succeeds or fails, the delivery outcome
is exactly the sink result, and the next cycle on an identical fetch result
does not re-attempt that item for its key (the failed notification is lost,
not retried). -/
theorem c1_amended (last : LastMap) (inputs : FetchInput YtItem)
    (n : Notification) (hnd : (inputs.map Prod.fst).Nodup)
    (hn : (fetchYoutubeVideos true last inputs).2 = some n) :
    (∀ sinkOk, (cycleWithSink last inputs sinkOk).1
        = (fetchYoutubeVideos true last inputs).1 ∧
      (cycleWithSink last inputs sinkOk).2 = some (n, sinkOk)) ∧
      dictGet (fetchYoutubeVideos true last inputs).1 n.account
        = some n.itemId ∧
      ∀ n', (fetchYoutubeVideos true
          (fetchYoutubeVideos true last inputs).1 inputs).2 = some n' →
        n'.account ≠ n.account := by
  rw [fetchYoutubeVideos_true] at hn
  obtain ⟨hcat, hst, hget, -⟩ := goVideos_some_decomp inputs last n hn
  refine ⟨?_, ?_, ?_⟩
  · intro sinkOk
    constructor
    · unfold cycleWithSink
      rw [fetchYoutubeVideos_true]
      rcases hgo : goVideos last inputs with ⟨l, o⟩
      cases o <;> simp
    · unfold cycleWithSink
      rw [fetchYoutubeVideos_true]
      rcases hgo : goVideos last inputs with ⟨l, o⟩
      have : o = some n := by rw [hgo] at hn; exact hn
      subst this
      simp
  · rw [fetchYoutubeVideos_true, hst]
    exact dictGet_dictSet_self last n.account n.itemId
  · intro n' hn'
    rw [fetchYoutubeVideos_true, fetchYoutubeVideos_true] at hn'
    obtain ⟨post, hlen, hnotpost, hrw⟩ :=
      goVideos_replay_skip last inputs hnd n hn
    rw [hrw] at hn'
    have hmem := goVideos_some_account_mem post _ n' hn'
    intro heq
    rw [heq] at hmem
    exact hnotpost hmem

/-- Witness for c1_amended at the concrete v2-committed, v3-fetched input. -/
theorem c1_amended_witness :
    ((([("goosetheband",
          Except.ok [(⟨"v3", 5, "t3"⟩ : YtItem)])] :
        FetchInput YtItem).map Prod.fst).Nodup) ∧
      ((fetchYoutubeVideos true [("goosetheband", "v2")]
          [("goosetheband", Except.ok [⟨"v3", 5, "t3"⟩])]).2
        = some ⟨.ytVideo, "goosetheband", "v3"⟩) ∧
      ((∀ sinkOk,
          (cycleWithSink [("goosetheband", "v2")]
            [("goosetheband", Except.ok [⟨"v3", 5, "t3"⟩])] sinkOk).1
            = (fetchYoutubeVideos true [("goosetheband", "v2")]
                [("goosetheband", Except.ok [⟨"v3", 5, "t3"⟩])]).1 ∧
          (cycleWithSink [("goosetheband", "v2")]
            [("goosetheband", Except.ok [⟨"v3", 5, "t3"⟩])] sinkOk).2
            = some (⟨.ytVideo, "goosetheband", "v3"⟩, sinkOk)) ∧
        dictGet (fetchYoutubeVideos true [("goosetheband", "v2")]
            [("goosetheband", Except.ok [⟨"v3", 5, "t3"⟩])]).1 "goosetheband"
          = some "v3" ∧
        ∀ n', (fetchYoutubeVideos true
            (fetchYoutubeVideos true [("goosetheband", "v2")]
              [("goosetheband", Except.ok [⟨"v3", 5, "t3"⟩])]).1
            [("goosetheband", Except.ok [⟨"v3", 5, "t3"⟩])]).2 = some n' →
          n'.account ≠ (⟨.ytVideo, "goosetheband", "v3"⟩ : Notification).account) :=
  ⟨by decide, by decide,
   c1_amended [("goosetheband", "v2")]
     [("goosetheband", Except.ok [⟨"v3", 5, "t3"⟩])]
     ⟨.ytVideo, "goosetheband", "v3"⟩ (by decide) (by decide)⟩

/-- C7: adapter errors never crash the cycle — every fetch step is a total
function; an exception in the Bluesky fetcher is caught at the function
(per-source) boundary so the fetcher returns None with its state unchanged;
the cycle then still runs the next source (YouTube) normally; and inside the
YouTube fetcher an exception on one handle is caught per handle and the loop
proceeds with the remaining handles. -/
theorem c7_error_containment (lastB lastV last : LastMap) (a h : String)
    (e e₁ e₂ : ApiError) (brest : FetchInput BskyPost)
    (rest vin : FetchInput YtItem) (nv : Bool) :
    fetchBlueskyPosts last ((a, .error e) :: brest) = (last, none) ∧
      pollCycle lastB lastV ((a, .error e₁) :: brest) vin
        = ((lastB, (fetchYoutubeVideos true lastV vin).1),
           (fetchYoutubeVideos true lastV vin).2.toList) ∧
      fetchYoutubeVideos nv last ((h, .error e₂) :: rest)
        = fetchYoutubeVideos nv last rest := by
  refine ⟨rfl, ?_, ?_⟩
  · simp [pollCycle, fetchBlueskyPosts, goBluesky]
  · cases nv <;> simp [fetchYoutubeVideos, goVideos]

theorem lastN_length_le {α : Type} (n : Nat) (l : List α) :
    (lastN n l).length ≤ n := by
  simp [lastN]
  omega

theorem mem_of_mem_lastN {α : Type} {x : α} {n : Nat} {l : List α}
    (hx : x ∈ lastN n l) : x ∈ l :=
  List.mem_of_mem_drop hx

/-- C4: the claim says that when a fetch result holds more than one unseen
item for a key, exactly one notification is produced and the older unseen
items are marked seen without ever being notified.  For the Instagram-stories
key this fails: with empty state and two unseen stories s1 and s2, the first
invocation notifies s1 only and does not mark s2 seen, and the next
invocation on the identical fetch result notifies s2 — so the other unseen
item IS notified later rather than silently marked seen. -/
theorem c4_counterexample :
    fetchInstagramStories true true []
        [("goosetheband", Except.ok [⟨"s1", 1, 100⟩, ⟨"s2", 1, 90⟩])]
      = ([("goosetheband", ["s1"])],
         some ⟨.igStory, "goosetheband", "s1"⟩) ∧
      ("s2" ∉ (["s1"] : List String)) ∧
      (fetchInstagramStories true true [("goosetheband", ["s1"])]
          [("goosetheband", Except.ok [⟨"s1", 1, 100⟩, ⟨"s2", 1, 90⟩])]).2
        = some ⟨.igStory, "goosetheband", "s2"⟩ := by
  refine ⟨by decide, by decide, by decide⟩

/-- C4 (amended): for the single-cursor categories (the YouTube video fetch),
a fetch result with several unseen items yields exactly one notification, for
the newest (head) item, and the cursor advances to that item alone — any
notification ever produced is for the head of some account's fetched list, so
older (non-head) items are never notified, though nothing marks them seen.
For the Instagram-stories category, one notification per invocation is
produced for the first unseen story in the list, and every other unseen story
is left unseen, to be notified on a later invocation. -/
theorem c4_amended :
    (∀ last inputs n, (fetchYoutubeVideos true last inputs).2 = some n →
        ∃ items, (n.account, Except.ok items) ∈ inputs ∧
          items.head?.map YtItem.videoId = some n.itemId) ∧
      (∀ last h i j rest more, dictGet last h ≠ some i.videoId →
        fetchYoutubeVideos true last ((h, Except.ok (i :: j :: rest)) :: more)
          = (dictSet last h i.videoId, some ⟨.ytVideo, h, i.videoId⟩)) ∧
      (∀ seen a sts n,
        (fetchInstagramStories true true seen [(a, Except.ok sts)]).2 = some n →
        ∀ st ∈ sts, st.id ≠ n.itemId →
          st.id ∉ (dictGet seen a).getD [] →
          st.id ∉ (dictGet (fetchInstagramStories true true seen
              [(a, Except.ok sts)]).1 a).getD []) := by
  refine ⟨?_, ?_, ?_⟩
  · intro last inputs n hn
    rw [fetchYoutubeVideos_true] at hn
    obtain ⟨-, -, -, pre, mid, post, hsplit, -, hhead⟩ :=
      goVideos_some_decomp inputs last n hn
    exact ⟨mid, by rw [hsplit]; simp, hhead⟩
  · intro last h i j rest more hnew
    rw [fetchYoutubeVideos_true]
    simp [goVideos, hnew]
  · intro seen a sts n hn st hst hne hunseen
    rcases hscan : storyScan ((dictGet seen a).getD []) sts with _ | sid
    · exfalso
      simp [fetchInstagramStories, goStories, hscan] at hn
    · have hsid : n.itemId = sid := by
        simp [fetchInstagramStories, goStories, hscan] at hn
        rw [← hn]
      have hstate : (fetchInstagramStories true true seen
          [(a, Except.ok sts)]).1
          = dictSet seen a
              (lastN 50 (((dictGet seen a).getD []) ++ [sid])) := by
        simp [fetchInstagramStories, goStories, hscan]
      rw [hstate, dictGet_dictSet_self]
      intro hmem
      have := mem_of_mem_lastN (n := 50) (by simpa using hmem)
      rcases List.mem_append.mp this with hc | hs
      · exact hunseen hc
      · rw [hsid] at hne
        exact hne (by simpa using hs)

/-- Witness for c4_amended: each conjunct applied at a concrete input. -/
theorem c4_amended_witness :
    (∃ items,
        (("goosetheband", Except.ok items) ∈
          ([("goosetheband", Except.ok [(⟨"v3", 5, "t3"⟩ : YtItem)])] :
            FetchInput YtItem)) ∧
        items.head?.map YtItem.videoId = some "v3") ∧
      fetchYoutubeVideos true [("goosetheband", "v2")]
          [("goosetheband",
            Except.ok [⟨"v3", 5, "t3"⟩, ⟨"v2", 4, "t2"⟩])]
        = ([("goosetheband", "v3")],
           some ⟨.ytVideo, "goosetheband", "v3"⟩) ∧
      ("s2" ∉ (dictGet (fetchInstagramStories true true []
          [("goosetheband",
            Except.ok [⟨"s1", 1, 100⟩, ⟨"s2", 1, 90⟩])]).1
          "goosetheband").getD []) :=
  ⟨c4_amended.1 [] [("goosetheband", Except.ok [⟨"v3", 5, "t3"⟩])]
     ⟨.ytVideo, "goosetheband", "v3"⟩ (by decide),
   c4_amended.2.1 [("goosetheband", "v2")] "goosetheband"
     ⟨"v3", 5, "t3"⟩ ⟨"v2", 4, "t2"⟩ [] [] (by decide),
   c4_amended.2.2 [] "goosetheband"
     [⟨"s1", 1, 100⟩, ⟨"s2", 1, 90⟩]
     ⟨.igStory, "goosetheband", "s1"⟩ (by decide)
     ⟨"s2", 1, 90⟩ (by decide) (by decide) (by decide)⟩

/-- C6: dedup cursors for distinct categories of one account are independent.
When the video fetch sees a never-seen standard video and the livestream
fetch sees a never-seen livestream in the same cycle, the cycle produces
exactly two notifications, one per category key, commits each id into its own
dictionary, and the outcome of either category is unchanged under arbitrary
replacement of the other category's dictionary. -/
theorem c6_category_independence (lv ll : LastMap) (h₁ h₂ : String)
    (i j : YtItem) (vrest lrest : List YtItem)
    (vmore lmore : FetchInput YtItem)
    (hv : dictGet lv h₁ ≠ some i.videoId)
    (hl : dictGet ll h₂ ≠ some j.videoId) :
    youtubeCycle ⟨true, true, lv, ll⟩
        ((h₁, Except.ok (i :: vrest)) :: vmore)
        ((h₂, Except.ok (j :: lrest)) :: lmore)
      = (⟨true, true, dictSet lv h₁ i.videoId, dictSet ll h₂ j.videoId⟩,
         [⟨.ytVideo, h₁, i.videoId⟩, ⟨.ytLivestream, h₂, j.videoId⟩]) ∧
      (∀ lv' ll' vin lin,
        (youtubeCycle ⟨true, true, lv, ll'⟩ vin lin).1.lastVideos
          = (youtubeCycle ⟨true, true, lv, ll⟩ vin lin).1.lastVideos ∧
        (youtubeCycle ⟨true, true, lv', ll⟩ vin lin).1.lastLivestreams
          = (youtubeCycle ⟨true, true, lv, ll⟩ vin lin).1.lastLivestreams) := by
  constructor
  · simp [youtubeCycle, fetchYoutubeVideos, fetchYoutubeLivestreams,
      goVideos, goLivestreams, hv, hl]
  · intro lv' ll' vin lin
    exact ⟨rfl, rfl⟩

/-- Witness for c6_category_independence at a concrete cycle input. -/
theorem c6_category_independence_witness :
    dictGet ([] : LastMap) "goosetheband" ≠ some "v3" ∧
      dictGet ([] : LastMap) "goosetheband" ≠ some "live1" ∧
      (youtubeCycle ⟨true, true, [], []⟩
          [("goosetheband", Except.ok [⟨"v3", 5, "t3"⟩])]
          [("goosetheband", Except.ok [⟨"live1", 6, "l1"⟩])]
        = (⟨true, true, [("goosetheband", "v3")],
             [("goosetheband", "live1")]⟩,
           [⟨.ytVideo, "goosetheband", "v3"⟩,
            ⟨.ytLivestream, "goosetheband", "live1"⟩]) ∧
        (∀ lv' ll' vin lin,
          (youtubeCycle ⟨true, true, [], ll'⟩ vin lin).1.lastVideos
            = (youtubeCycle ⟨true, true, [], []⟩ vin lin).1.lastVideos ∧
          (youtubeCycle ⟨true, true, lv', []⟩ vin lin).1.lastLivestreams
            = (youtubeCycle ⟨true, true, [], []⟩ vin lin).1.lastLivestreams)) :=
  ⟨by decide, by decide,
   c6_category_independence [] [] "goosetheband" "goosetheband"
     ⟨"v3", 5, "t3"⟩ ⟨"live1", 6, "l1"⟩ [] [] [] []
     (by decide) (by decide)⟩

theorem goStories_bound (inputs : FetchInput IgStory) :
    ∀ seen, (∀ a, ((dictGet seen a).getD []).length ≤ 50) →
      ∀ a, ((dictGet (goStories seen inputs).1 a).getD []).length ≤ 50 := by
  induction inputs with
  | nil => intro seen hb a; exact hb a
  | cons p rest ih =>
    intro seen hb a
    obtain ⟨acc, r⟩ := p
    cases r with
    | error e => simpa [goStories] using hb a
    | ok sts =>
      rcases hscan : storyScan ((dictGet seen acc).getD []) sts with _ | sid
      · simpa [goStories, hscan] using ih seen hb a
      · by_cases hacc : acc = a
        · subst hacc
          simpa [goStories, hscan, dictGet_dictSet_self] using
            lastN_length_le 50 (((dictGet seen acc).getD []) ++ [sid])
        · simpa [goStories, hscan, dictGet_dictSet_ne seen acc a _ hacc] using
            hb a

/-- C10: the persisted seen-story state is bounded — if every tracked
account's seen-story list has length at most 50 before an invocation of the
Instagram-stories fetch, then after the invocation every list still has
length at most 50; whenever a new story id is appended, the list is truncated
to its last 50 entries. -/
theorem c10_seen_bound (clientOk notifyStories : Bool) (seen : SeenMap)
    (inputs : FetchInput IgStory)
    (hb : ∀ a, ((dictGet seen a).getD []).length ≤ 50) :
    ∀ a, ((dictGet (fetchInstagramStories clientOk notifyStories
        seen inputs).1 a).getD []).length ≤ 50 := by
  intro a
  cases hgx : clientOk && notifyStories with
  | false => simpa [fetchInstagramStories, hgx] using hb a
  | true => simpa [fetchInstagramStories, hgx] using goStories_bound inputs seen hb a

/-- Witness for c10_seen_bound starting from the empty seen-story state. -/
theorem c10_seen_bound_witness :
    (∀ a, ((dictGet ([] : SeenMap) a).getD []).length ≤ 50) ∧
      ∀ a, ((dictGet (fetchInstagramStories true true []
          [("goosetheband",
            Except.ok [⟨"s1", 1, 100⟩, ⟨"s2", 1, 90⟩])]).1 a).getD []).length
        ≤ 50 :=
  ⟨fun a => by simp [dictGet],
   c10_seen_bound true true []
     [("goosetheband", Except.ok [⟨"s1", 1, 100⟩, ⟨"s2", 1, 90⟩])]
     (fun a => by simp [dictGet])⟩

/-- C8: with max_requests = 2 and time_window = 60, three acquire calls in
immediate succession starting at any time t incur delays 0, 0 and 60, so the
total elapsed time before the third call returns is exactly 60 ≥ 60 seconds;
no call is rejected — the run returns ok and all three requests are recorded
as timestamps. -/
theorem c8_rate_limit (t : Nat) :
    RateLimiter.acquireRun ⟨2, 60, []⟩ t 3
        = .ok (60, ⟨2, 60, [t, t, t + 60]⟩) ∧
      60 ≥ 60 := by
  refine ⟨?_, le_refl 60⟩
  simp [RateLimiter.acquireRun, RateLimiter.acquire, Nat.add_sub_cancel_left]

theorem schedulerRun_running_le (events : List SchedulerEvent) :
    ∀ s : SchedulerState, s.running ≤ 1 →
      (events.foldl schedulerStep s).running ≤ 1 := by
  induction events with
  | nil => intro s hs; simpa using hs
  | cons e rest ih =>
    intro s hs
    refine ih _ ?_
    cases e with
    | tick =>
      by_cases hr : 1 ≤ s.running
      · simpa [schedulerStep, hr] using hs
      · simp only [schedulerStep, hr, if_false]
        omega
    | cycleEnd =>
      simp only [schedulerStep]
      omega

/-- C9: at most one polling cycle executes at a time — under the single-flight
tick policy, for every schedule of ticks and cycle completions the number of
concurrently running cycles never exceeds one, because a tick that fires
while a cycle is running is skipped rather than queued. -/
theorem c9_single_flight (events : List SchedulerEvent) :
    (schedulerRun events).running ≤ 1 :=
  schedulerRun_running_le events ⟨0, 0⟩ (by decide)

end TedBot
